import Mathlib

/-! Overview.
Verification of the 3D particle choreography engine of the Scene component:
formation generation, transition scheduling, camera animation and the
per-frame breathing oscillation, embedded shallowly over the real numbers.
Each definition mirrors one function or statement block of the source;
JavaScript numbers are modelled as reals, and the one place where the
source can divide zero by zero (producing NaN) is modelled with Option.
-/

namespace Geusey

noncomputable section

/-- A 3D vector, as used for element positions throughout the source. -/
structure Vec3 where
  x : ℝ
  y : ℝ
  z : ℝ

/-- Euclidean norm of a position, written the way the source writes it:
componentwise products summed under a square root. -/
def dist3 (v : Vec3) : ℝ :=
  Real.sqrt (v.x * v.x + v.y * v.y + v.z * v.z)

/-- Per-element body of updateObjectScales: the distance of the element from
the origin is recomputed from its current position on every call, the wave
phase is derived from that distance, and the smoothed scale is advanced. -/
def updateObjectScale (pos : Vec3) (elapsedTime currentScale : ℝ) : ℝ :=
  let distance := Real.sqrt (pos.x * pos.x + pos.y * pos.y + pos.z * pos.z)
  let phase := distance * 0.002
  let wave := Real.sin (elapsedTime * 1.2 - phase) * 0.25
  let targetScale := 1.0 + wave
  currentScale + (targetScale - currentScale) * 0.15

/-- The breathing update as the specification words it, for comparison with
the source: the phase is taken from a cached distanceFromCenter said to be
recorded when the element's tween last completed.  The source maintains no
such cache; this definition follows the specification's words only. -/
def claimedScaleUpdate (distanceFromCenter elapsedTime currentScale : ℝ) : ℝ :=
  let wave := Real.sin (elapsedTime * 1.2 - distanceFromCenter * 0.002) * 0.25
  let targetScale := 1.0 + wave
  currentScale + (targetScale - currentScale) * 0.15

/-- Claim C1, counterexample.  An element currently at position (5,0,0)
(distance 5 from the origin) whose cached distance-at-last-tween-completion
would be 10 gets a different scale from the code than the claim predicts:
the code recomputes the distance from the current position each frame and
does not read any cached distanceFromCenter. -/
theorem breathing_phase_cached_counterexample :
    updateObjectScale ⟨5, 0, 0⟩ 0 1 ≠ claimedScaleUpdate 10 0 1 := by
  have h25 : Real.sqrt ((5 : ℝ) * 5 + 0 * 0 + 0 * 0) = 5 := by
    rw [show (5 : ℝ) * 5 + 0 * 0 + 0 * 0 = 5 ^ 2 by norm_num]
    exact Real.sqrt_sq (by norm_num)
  have hpi := Real.pi_gt_three
  have hmem1 : (0 : ℝ) * 1.2 - 5 * 0.002 ∈
      Set.Icc (-(Real.pi / 2)) (Real.pi / 2) := by
    constructor <;> nlinarith
  have hmem2 : (0 : ℝ) * 1.2 - 10 * 0.002 ∈
      Set.Icc (-(Real.pi / 2)) (Real.pi / 2) := by
    constructor <;> nlinarith
  have hsin : Real.sin ((0 : ℝ) * 1.2 - 5 * 0.002) ≠
      Real.sin ((0 : ℝ) * 1.2 - 10 * 0.002) := by
    intro h
    have := Real.injOn_sin hmem1 hmem2 h
    norm_num at this
  simp only [updateObjectScale, claimedScaleUpdate, h25]
  intro h
  apply hsin
  nlinarith [h]

/-- Claim C1, amended.  The breathing formula of the claim is exactly what
the code computes, except that the phase input is the distance recomputed
from the element's current position on every frame (not a cached value):
the code equals the spec formula instantiated with the recomputed
distance. -/
theorem breathing_phase_recomputed_each_frame (pos : Vec3) (e c : ℝ) :
    updateObjectScale pos e c = claimedScaleUpdate (dist3 pos) e c := rfl

/-! Formation generation (createTargets).  The Sphere, Spiral and Fibonacci
branches are embedded per element index.  JavaScript division is total and
yields NaN for 0/0; the Spiral and Fibonacci branches divide the index by
(l - 1), which is 0/0 when l = 1, so that division is modelled with Option:
none stands for the non-finite (NaN) value JavaScript produces there. -/

/-- JavaScript division as used for the fraction i / (l - 1): division by
zero does not yield a real number (for the occurring case 0/0 it is NaN),
modelled as none. -/
def jsDiv (a b : ℝ) : Option ℝ :=
  if b = 0 then none else some (a / b)

/-- Sphere branch of createTargets: spherical coordinates of radius 1750
via setFromSphericalCoords (x = sin phi * r * sin theta, y = cos phi * r,
z = sin phi * r * cos theta). -/
def spherePosition (l i : ℕ) : Vec3 :=
  let phi := Real.arccos (-1 + 2 * (i : ℝ) / (l : ℝ))
  let theta := Real.sqrt ((l : ℝ) * Real.pi) * phi
  ⟨Real.sin phi * 1750 * Real.sin theta, Real.cos phi * 1750,
   Real.sin phi * 1750 * Real.cos theta⟩

/-- Spiral branch of createTargets, given the fraction i / (l - 1):
angle = fraction * 15 turns * pi * 4, radius = fraction * (150 * 8), and
position (radius * cos angle, radius * sin angle, radius * sin angle). -/
def spiralCore (f : ℝ) : Vec3 :=
  let angle := f * 15 * Real.pi * 4
  let radius := f * (150 * 8)
  ⟨radius * Real.cos angle, radius * Real.sin angle, radius * Real.sin angle⟩

/-- Spiral branch of createTargets for population l, index i. -/
def spiralPosition (l i : ℕ) : Option Vec3 :=
  (jsDiv (i : ℝ) ((l : ℝ) - 1)).map spiralCore

/-- Fibonacci branch of createTargets, given the fraction i / (l - 1):
y0 = 1 - fraction * 2, radius = sqrt (1 - y0 * y0),
theta = pi * (3 - sqrt 5) * i, r = 600. -/
def fibonacciCore (f : ℝ) (i : ℕ) : Vec3 :=
  let y0 := 1 - f * 2
  let radius := Real.sqrt (1 - y0 * y0)
  let theta := Real.pi * (3 - Real.sqrt 5) * (i : ℝ)
  ⟨Real.cos theta * radius * 600, y0 * 600, Real.sin theta * radius * 600⟩

/-- Fibonacci branch of createTargets for population l, index i. -/
def fibonacciPosition (l i : ℕ) : Option Vec3 :=
  (jsDiv (i : ℝ) ((l : ℝ) - 1)).map (fun f => fibonacciCore f i)

/-- Norm of a point written in spherical coordinates is its radius. -/
lemma sphericalCoords_norm (r phi theta : ℝ) (hr : 0 ≤ r) :
    dist3 ⟨Real.sin phi * r * Real.sin theta, Real.cos phi * r,
      Real.sin phi * r * Real.cos theta⟩ = r := by
  unfold dist3
  rw [show Real.sin phi * r * Real.sin theta * (Real.sin phi * r * Real.sin theta) +
      Real.cos phi * r * (Real.cos phi * r) +
      Real.sin phi * r * Real.cos theta * (Real.sin phi * r * Real.cos theta) = r ^ 2 from by
    linear_combination (r ^ 2 * Real.sin phi ^ 2) * Real.sin_sq_add_cos_sq theta +
      r ^ 2 * Real.sin_sq_add_cos_sq phi]
  exact Real.sqrt_sq hr

/-- Every sphere-formation position has norm exactly 1750. -/
lemma sphere_norm (l i : ℕ) : dist3 (spherePosition l i) = 1750 :=
  sphericalCoords_norm 1750 _ _ (by norm_num)

/-- Norm of a Fibonacci-style point whose horizontal radius squares to
1 - y0 * y0. -/
lemma fibonacci_norm_aux (y0 rad theta : ℝ) (hR : rad * rad = 1 - y0 * y0) :
    dist3 ⟨Real.cos theta * rad * 600, y0 * 600, Real.sin theta * rad * 600⟩ = 600 := by
  unfold dist3
  rw [show Real.cos theta * rad * 600 * (Real.cos theta * rad * 600) +
      y0 * 600 * (y0 * 600) +
      Real.sin theta * rad * 600 * (Real.sin theta * rad * 600) = (600 : ℝ) ^ 2 from by
    linear_combination (600 ^ 2 * (Real.cos theta ^ 2 + Real.sin theta ^ 2)) * hR +
      (600 ^ 2 * (1 - y0 * y0)) * Real.sin_sq_add_cos_sq theta]
  exact Real.sqrt_sq (by norm_num)

/-- Every Fibonacci-formation position with fraction in [0,1] has norm
exactly 600. -/
lemma fibonacciCore_norm (f : ℝ) (i : ℕ) (h0 : 0 ≤ f) (h1 : f ≤ 1) :
    dist3 (fibonacciCore f i) = 600 := by
  have hy0 : (0 : ℝ) ≤ 1 - (1 - f * 2) * (1 - f * 2) := by nlinarith
  exact fibonacci_norm_aux (1 - f * 2) (Real.sqrt (1 - (1 - f * 2) * (1 - f * 2)))
    (Real.pi * (3 - Real.sqrt 5) * (i : ℝ)) (Real.mul_self_sqrt hy0)

/-- The true norm of a spiral-formation position: the radius stretched by
sqrt (1 + sin angle ^ 2), because both y and z receive radius * sin angle. -/
lemma spiral_norm (f : ℝ) (h0 : 0 ≤ f) :
    dist3 (spiralCore f) =
      f * 1200 * Real.sqrt (1 + Real.sin (f * 15 * Real.pi * 4) ^ 2) := by
  have key : ∀ a : ℝ,
      dist3 ⟨f * (150 * 8) * Real.cos a, f * (150 * 8) * Real.sin a,
        f * (150 * 8) * Real.sin a⟩ =
        f * 1200 * Real.sqrt (1 + Real.sin a ^ 2) := by
    intro a
    unfold dist3
    rw [show f * (150 * 8) * Real.cos a * (f * (150 * 8) * Real.cos a) +
        f * (150 * 8) * Real.sin a * (f * (150 * 8) * Real.sin a) +
        f * (150 * 8) * Real.sin a * (f * (150 * 8) * Real.sin a) =
        (f * 1200) ^ 2 * (1 + Real.sin a ^ 2) from by
      linear_combination ((f * 1200) ^ 2) * Real.sin_sq_add_cos_sq a]
    rw [Real.sqrt_mul (sq_nonneg _), Real.sqrt_sq (by positivity)]
  exact key (f * 15 * Real.pi * 4)

/-- Claim C2, counterexample.  For population 62 and index 1 the spiral
position's norm is not (i / (N - 1)) * 1200: the generated point is
(r cos a, r sin a, r sin a), whose norm is r * sqrt (1 + sin a ^ 2), and
sin a is nonzero at a = 60 * pi / 61. -/
theorem spiral_radius_counterexample :
    (spiralPosition 62 1).map dist3 ≠
      some (((1 : ℕ) : ℝ) / (((62 : ℕ) : ℝ) - 1) * 1200) := by
  have hne : (((62 : ℕ) : ℝ) - 1) ≠ 0 := by norm_num
  have hf0 : (0 : ℝ) ≤ ((1 : ℕ) : ℝ) / (((62 : ℕ) : ℝ) - 1) := by norm_num
  have hnorm := spiral_norm (((1 : ℕ) : ℝ) / (((62 : ℕ) : ℝ) - 1)) hf0
  have hang : ((1 : ℕ) : ℝ) / (((62 : ℕ) : ℝ) - 1) * 15 * Real.pi * 4 =
      Real.pi * (60 / 61) := by push_cast; ring
  have hs : 0 < Real.sin (((1 : ℕ) : ℝ) / (((62 : ℕ) : ℝ) - 1) * 15 * Real.pi * 4) := by
    rw [hang]
    apply Real.sin_pos_of_pos_of_lt_pi
    · positivity
    · nlinarith [Real.pi_pos]
  have hsqrt : 1 < Real.sqrt (1 +
      Real.sin (((1 : ℕ) : ℝ) / (((62 : ℕ) : ℝ) - 1) * 15 * Real.pi * 4) ^ 2) := by
    rw [Real.lt_sqrt (by norm_num)]
    nlinarith [hs]
  have hA : (0 : ℝ) < ((1 : ℕ) : ℝ) / (((62 : ℕ) : ℝ) - 1) * 1200 := by norm_num
  intro h
  simp only [spiralPosition, jsDiv, if_neg hne, Option.map_some'] at h
  have h2 := Option.some.inj h
  rw [hnorm] at h2
  nlinarith [h2, hsqrt, hA, mul_pos hA (sub_pos.mpr hsqrt)]

/-- Claim C2, amended.  For every population size N at least 2 and index
i below N, the sphere position has norm 1750 and the Fibonacci position has
norm 600; a spiral position with index fraction f = i / (N - 1) has norm
f * 1200 * sqrt (1 + sin (f * 15 * pi * 4) ^ 2), which exceeds the claimed
f * 1200 whenever sin of the spiral angle is nonzero. -/
theorem formation_radius_amended (l i : ℕ) (hl : 2 ≤ l) (hi : i < l) :
    dist3 (spherePosition l i) = 1750
    ∧ (fibonacciPosition l i).map dist3 = some 600
    ∧ (spiralPosition l i).map dist3 =
        some ((i : ℝ) / ((l : ℝ) - 1) * 1200 *
          Real.sqrt (1 + Real.sin ((i : ℝ) / ((l : ℝ) - 1) * 15 * Real.pi * 4) ^ 2)) := by
  have hl2 : (2 : ℝ) ≤ (l : ℝ) := by exact_mod_cast hl
  have hpos : (0 : ℝ) < (l : ℝ) - 1 := by linarith
  have hne : ((l : ℝ) - 1) ≠ 0 := ne_of_gt hpos
  have hf0 : 0 ≤ (i : ℝ) / ((l : ℝ) - 1) :=
    div_nonneg (Nat.cast_nonneg i) (le_of_lt hpos)
  have hi1 : (i : ℝ) + 1 ≤ (l : ℝ) := by exact_mod_cast hi
  have hf1 : (i : ℝ) / ((l : ℝ) - 1) ≤ 1 := by
    rw [div_le_one hpos]
    linarith
  refine ⟨sphere_norm l i, ?_, ?_⟩
  · simp only [fibonacciPosition, jsDiv, if_neg hne, Option.map_some']
    exact congrArg some (fibonacciCore_norm _ i hf0 hf1)
  · simp only [spiralPosition, jsDiv, if_neg hne, Option.map_some']
    exact congrArg some (spiral_norm _ hf0)

/-- Claim C2 amended, witness at population 2, index 1. -/
theorem formation_radius_amended_witness :
    dist3 (spherePosition 2 1) = 1750
    ∧ (fibonacciPosition 2 1).map dist3 = some 600
    ∧ (spiralPosition 2 1).map dist3 =
        some (((1 : ℕ) : ℝ) / (((2 : ℕ) : ℝ) - 1) * 1200 *
          Real.sqrt (1 +
            Real.sin (((1 : ℕ) : ℝ) / (((2 : ℕ) : ℝ) - 1) * 15 * Real.pi * 4) ^ 2)) :=
  formation_radius_amended 2 1 (by norm_num) (by norm_num)

/-- Claim C3.  For the degenerate population size 1 the only index is 0 and
the fraction is 0 / 0: the source has no guard, so both the Spiral and the
Fibonacci branch produce the non-finite (NaN) pose, modelled as none. -/
theorem degenerate_population_nan_eval :
    spiralPosition 1 0 = none ∧ fibonacciPosition 1 0 = none := by
  constructor <;> simp [spiralPosition, fibonacciPosition, jsDiv]

/-! Tween bookkeeping.  The source keeps the per-element position and
rotation tweens and the bookkeeping timer in the default TWEEN group and
the camera tween in the separate cameraTweenGroup.  Tweens are modelled as
records tagged with a monotonically fresh identifier so that cancellation
(group emptying via removeAll) is observable. -/

/-- What a tween animates: an element's position or rotation (by element
index), the bookkeeping timer of a transition, or the camera's z-depth
toward a target value. -/
inductive TweenKind where
  | elemPos : ℕ → TweenKind
  | elemRot : ℕ → TweenKind
  | bookkeeping : TweenKind
  | cameraZoom : ℝ → TweenKind

/-- One scheduled tween: identity, what it animates, its start delay and
its duration (both in milliseconds). -/
structure Tween where
  tweenId : ℕ
  kind : TweenKind
  delay : ℝ
  duration : ℝ

/-- The two tween groups of the source (default group for particles and
bookkeeping, cameraTweenGroup for the camera) plus a freshness counter. -/
structure TweenState where
  defaultGroup : List Tween
  cameraGroup : List Tween
  nextId : ℕ

/-- Scheduling constants of the source. -/
def transitionDuration : ℝ := 2000

/-- Display-hold duration between transitions. -/
def displayDuration : ℝ := 16000

/-- Maximum distance-based stagger delay. -/
def maxStaggerDelay : ℝ := 600

/-- Center of mass of the element positions, as computed in transition. -/
def centroid (ps : List Vec3) : Vec3 :=
  ⟨(ps.map Vec3.x).sum / ps.length, (ps.map Vec3.y).sum / ps.length,
   (ps.map Vec3.z).sum / ps.length⟩

/-- Distance of a position from the centroid, written as in the source. -/
def distToCenter (c p : Vec3) : ℝ :=
  Real.sqrt ((p.x - c.x) * (p.x - c.x) + (p.y - c.y) * (p.y - c.y) +
    (p.z - c.z) * (p.z - c.z))

/-- Maximum of the element distances from the centroid (0 when empty),
accumulated exactly as the source's running-maximum loop does. -/
def maxDistance (ps : List Vec3) : ℝ :=
  (ps.map (distToCenter (centroid ps))).foldl max 0

/-- normalizedDistance of element i: its distance over the maximum when the
maximum is positive, else 0. -/
def normalizedDistance (ps : List Vec3) (i : ℕ) : ℝ :=
  if 0 < maxDistance ps then
    distToCenter (centroid ps) (ps.getD i ⟨0, 0, 0⟩) / maxDistance ps
  else 0

/-- The two tweens started for element i in transition: one for its
position and one for its rotation, sharing the element's distance-based
stagger delay and its jittered duration. -/
def elemTweens (ps : List Vec3) (jitter : ℕ → ℝ) (startId i : ℕ) : List Tween :=
  let staggerDelay := normalizedDistance ps i * maxStaggerDelay
  let dur := transitionDuration + jitter i * transitionDuration * 0.2
  [⟨startId + 2 * i, TweenKind.elemPos i, staggerDelay, dur⟩,
   ⟨startId + 2 * i + 1, TweenKind.elemRot i, staggerDelay, dur⟩]

/-- The transition step of the scheduler: empty the default group
(TWEEN.removeAll), start fresh position and rotation tweens for every
element and the bookkeeping timer; the camera group is not touched.
jitter i stands for the Math.random() draw of element i's duration. -/
def transition (ps : List Vec3) (jitter : ℕ → ℝ) (s : TweenState) : TweenState :=
  { defaultGroup :=
      (List.range ps.length).flatMap (elemTweens ps jitter s.nextId) ++
        [⟨s.nextId + 2 * ps.length, TweenKind.bookkeeping, 0,
          displayDuration + transitionDuration * 2 + maxStaggerDelay⟩],
    cameraGroup := s.cameraGroup,
    nextId := s.nextId + 2 * ps.length + 1 }

/-- The camera-zoom effect body: empty only cameraTweenGroup
(cameraTweenGroup.removeAll) and start a fresh 2000 ms tween toward
z = 4500 when expanded, z = 2500 otherwise; the default group is not
touched. -/
def setExpanded (b : Bool) (s : TweenState) : TweenState :=
  { defaultGroup := s.defaultGroup,
    cameraGroup := [⟨s.nextId, TweenKind.cameraZoom (if b then 4500 else 2500), 0, 2000⟩],
    nextId := s.nextId + 1 }

/-- Freshness invariant: every scheduled tween's identifier is below the
counter. -/
def wellFormed (s : TweenState) : Prop :=
  ∀ t ∈ s.defaultGroup ++ s.cameraGroup, t.tweenId < s.nextId

/-- Every tween in the default group after a transition is fresh. -/
lemma transition_defaultGroup_fresh (ps : List Vec3) (jitter : ℕ → ℝ)
    (s : TweenState) (t : Tween) (ht : t ∈ (transition ps jitter s).defaultGroup) :
    s.nextId ≤ t.tweenId := by
  simp only [transition, List.mem_append, List.mem_flatMap, List.mem_range,
    elemTweens, List.mem_cons, List.not_mem_nil, or_false, List.mem_singleton] at ht
  rcases ht with ⟨i, _, h | h⟩ | h <;> (subst h; simp; try omega)

/-- Claim C4.  Starting a new transition empties the default group (every
previously scheduled element tween and the bookkeeping timer is cancelled)
and leaves the camera group untouched; conversely the camera-zoom effect
replaces only the camera group's own tween and leaves the default group
untouched. -/
theorem transition_cancellation_scopes (ps : List Vec3) (jitter : ℕ → ℝ)
    (s : TweenState) (b : Bool) (hwf : wellFormed s) :
    (transition ps jitter s).cameraGroup = s.cameraGroup
    ∧ (∀ t ∈ s.defaultGroup, t ∉ (transition ps jitter s).defaultGroup)
    ∧ (setExpanded b s).defaultGroup = s.defaultGroup
    ∧ (∀ t ∈ s.cameraGroup, t ∉ (setExpanded b s).cameraGroup) := by
  refine ⟨rfl, ?_, rfl, ?_⟩
  · intro t htold htnew
    have h1 : t.tweenId < s.nextId :=
      hwf t (List.mem_append_left _ htold)
    have h2 := transition_defaultGroup_fresh ps jitter s t htnew
    omega
  · intro t htold htnew
    have h1 : t.tweenId < s.nextId :=
      hwf t (List.mem_append_right _ htold)
    simp only [setExpanded, List.mem_singleton] at htnew
    subst htnew
    simp at h1

/-- The empty tween state, before anything is scheduled. -/
def emptyTweenState : TweenState := ⟨[], [], 0⟩

/-- Claim C4, witness: one element at the origin, a fresh state. -/
theorem transition_cancellation_scopes_witness :
    (transition [⟨0, 0, 0⟩] (fun _ => 0) emptyTweenState).cameraGroup =
        emptyTweenState.cameraGroup
    ∧ (∀ t ∈ emptyTweenState.defaultGroup,
        t ∉ (transition [⟨0, 0, 0⟩] (fun _ => 0) emptyTweenState).defaultGroup)
    ∧ (setExpanded true emptyTweenState).defaultGroup = emptyTweenState.defaultGroup
    ∧ (∀ t ∈ emptyTweenState.cameraGroup,
        t ∉ (setExpanded true emptyTweenState).cameraGroup) :=
  transition_cancellation_scopes [⟨0, 0, 0⟩] (fun _ => 0) emptyTweenState true
    (by intro t ht; simp [emptyTweenState] at ht)

/-- Claim C7.  Running the camera-zoom effect twice with expanded = true
starts a genuinely fresh tween the second time (a new identifier, so the
tween is restarted rather than optimized away) and the target z-depth is
unchanged at the far value 4500. -/
theorem setExpanded_twice_restarts_same_target (s : TweenState) :
    (setExpanded true (setExpanded true s)).cameraGroup =
        [⟨s.nextId + 1, TweenKind.cameraZoom 4500, 0, 2000⟩]
    ∧ (setExpanded true s).cameraGroup =
        [⟨s.nextId, TweenKind.cameraZoom 4500, 0, 2000⟩]
    ∧ s.nextId + 1 ≠ s.nextId :=
  ⟨by simp [setExpanded], by simp [setExpanded], by omega⟩

/-- A left fold of max never drops below its initial accumulator. -/
lemma le_foldl_max (l : List ℝ) (a : ℝ) : a ≤ l.foldl max a := by
  induction l generalizing a with
  | nil => exact le_refl a
  | cons x xs ih => exact le_trans (le_max_left a x) (ih (max a x))

/-- Every member of a list is bounded by the left fold of max over it. -/
lemma mem_le_foldl_max : ∀ (l : List ℝ) (a v : ℝ), v ∈ l → v ≤ l.foldl max a := by
  intro l
  induction l with
  | nil => intro a v hv; cases hv
  | cons x xs ih =>
    intro a v hv
    rcases List.mem_cons.mp hv with h | h
    · subst h
      exact le_trans (le_max_right a v) (le_foldl_max xs (max a v))
    · exact ih (max a x) v h

/-- The normalized distance of an in-range element lies in [0, 1]. -/
lemma normalizedDistance_bounds (ps : List Vec3) (i : ℕ) (hi : i < ps.length) :
    0 ≤ normalizedDistance ps i ∧ normalizedDistance ps i ≤ 1 := by
  unfold normalizedDistance
  split
  case isTrue hmax =>
    have hd0 : 0 ≤ distToCenter (centroid ps) (ps.getD i ⟨0, 0, 0⟩) :=
      Real.sqrt_nonneg _
    have hmem : distToCenter (centroid ps) (ps.getD i ⟨0, 0, 0⟩) ∈
        ps.map (distToCenter (centroid ps)) := by
      rw [List.getD_eq_getElem ps _ hi]
      exact List.mem_map_of_mem _ (List.getElem_mem hi)
    have hle : distToCenter (centroid ps) (ps.getD i ⟨0, 0, 0⟩) ≤ maxDistance ps :=
      mem_le_foldl_max _ 0 _ hmem
    exact ⟨div_nonneg hd0 (le_of_lt hmax), (div_le_one hmax).mpr hle⟩
  case isFalse => norm_num

/-- Claim C6.  The bookkeeping timer started by transition runs for exactly
display-hold + 2 * transition-duration + max-stagger = 20600 ms, and every
element tween of that transition (stagger delay plus jittered duration,
with the random jitter draw in [0, 1)) finishes within 600 + 2400 ms,
strictly before the timer re-arms the next transition. -/
theorem bookkeeping_timer_covers_tweens (ps : List Vec3) (jitter : ℕ → ℝ)
    (s : TweenState) (hj : ∀ i, 0 ≤ jitter i ∧ jitter i < 1) :
    displayDuration + transitionDuration * 2 + maxStaggerDelay = 20600
    ∧ ∀ t ∈ (transition ps jitter s).defaultGroup, t.kind ≠ TweenKind.bookkeeping →
        t.delay + t.duration ≤ 600 + 2400
        ∧ t.delay + t.duration < displayDuration + transitionDuration * 2 + maxStaggerDelay := by
  constructor
  · norm_num [displayDuration, transitionDuration, maxStaggerDelay]
  · intro t ht hkind
    simp only [transition, List.mem_append, List.mem_flatMap, List.mem_range,
      elemTweens, List.mem_cons, List.not_mem_nil, or_false,
      List.mem_singleton] at ht
    rcases ht with ⟨i, hi, h | h⟩ | h
    · obtain ⟨hn0, hn1⟩ := normalizedDistance_bounds ps i hi
      obtain ⟨hj0, hj1⟩ := hj i
      subst h
      dsimp only
      simp only [transitionDuration, maxStaggerDelay, displayDuration]
      constructor <;> nlinarith
    · obtain ⟨hn0, hn1⟩ := normalizedDistance_bounds ps i hi
      obtain ⟨hj0, hj1⟩ := hj i
      subst h
      dsimp only
      simp only [transitionDuration, maxStaggerDelay, displayDuration]
      constructor <;> nlinarith
    · subst h
      simp at hkind

/-- Claim C6, witness: one element at the origin, zero jitter draw. -/
theorem bookkeeping_timer_covers_tweens_witness :
    displayDuration + transitionDuration * 2 + maxStaggerDelay = 20600
    ∧ ∀ t ∈ (transition [⟨0, 0, 0⟩] (fun _ => 0) emptyTweenState).defaultGroup,
        t.kind ≠ TweenKind.bookkeeping →
        t.delay + t.duration ≤ 600 + 2400
        ∧ t.delay + t.duration <
            displayDuration + transitionDuration * 2 + maxStaggerDelay :=
  bookkeeping_timer_covers_tweens [⟨0, 0, 0⟩] (fun _ => 0) emptyTweenState
    (fun _ => ⟨le_refl 0, by norm_num⟩)

/-! Formation-key selection.  transition draws nextIndex with
Math.floor(Math.random() * keys.length) and, when more than one key
exists, redraws while the draw equals the previous currentLayoutIndex
(which starts at -1, hence the integer type for prev).  The draws are
modelled as a stream consumed in order; the while loop returns the first
draw that differs from prev, so its embedding needs a witness that some
draw differs. -/

/-- The reject-and-resample pick of the next formation index. -/
def pickNext (len : ℕ) (prev : ℤ) (draws : ℕ → ℕ)
    (h : ∃ n, (draws n : ℤ) ≠ prev) : ℕ :=
  if 1 < len then draws (Nat.find h) else draws 0

/-- Claim C5.  When more than one formation key is available and every draw
is a valid index, the selected formation index is a valid index and never
equals the immediately preceding selected index. -/
theorem next_formation_differs (len : ℕ) (prev : ℤ) (draws : ℕ → ℕ)
    (h : ∃ n, (draws n : ℤ) ≠ prev) (hlen : 1 < len)
    (hdraws : ∀ n, draws n < len) :
    (pickNext len prev draws h : ℤ) ≠ prev ∧ pickNext len prev draws h < len := by
  unfold pickNext
  rw [if_pos hlen]
  exact ⟨Nat.find_spec h, hdraws _⟩

/-- Claim C5, witness: six keys, previous index 2, draws cycling 0..5. -/
theorem next_formation_differs_witness :
    (pickNext 6 2 (fun n => n % 6) ⟨0, by norm_num⟩ : ℤ) ≠ 2
    ∧ pickNext 6 2 (fun n => n % 6) ⟨0, by norm_num⟩ < 6 :=
  next_formation_differs 6 2 (fun n => n % 6) ⟨0, by norm_num⟩ (by norm_num)
    (fun n => Nat.mod_lt n (by norm_num))

/-! The exponential smoothing step of the breathing filter. -/

/-- One smoothing step toward a fixed target scale. -/
def smoothStep (targetScale c : ℝ) : ℝ := c + (targetScale - c) * 0.15

/-- After each smoothing step the remaining error is 0.85 of the old. -/
lemma smoothStep_err (t x : ℝ) : t - smoothStep t x = 0.85 * (t - x) := by
  unfold smoothStep
  ring

/-- Iterated smoothing leaves error 0.85 ^ n of the initial error. -/
lemma smoothStep_iter_err (t c : ℝ) :
    ∀ n : ℕ, t - (smoothStep t)^[n] c = 0.85 ^ n * (t - c) := by
  intro n
  induction n with
  | zero => simp
  | succ n ih =>
    rw [Function.iterate_succ_apply', smoothStep_err, ih]
    ring

/-- Claim C8.  Under repeated smoothing with factor 0.15, the error to the
target shrinks by exactly the factor 0.85 each step, its magnitude after n
steps is 0.85 ^ n times the initial magnitude, and its sign never flips
(the iterate stays on the starting side of the target, so it never
overshoots at all, in particular not by more than one step's error). -/
theorem smoothing_monotone_convergence (t c : ℝ) (n : ℕ) :
    t - (smoothStep t)^[n + 1] c = 0.85 * (t - (smoothStep t)^[n] c)
    ∧ |t - (smoothStep t)^[n] c| = 0.85 ^ n * |t - c|
    ∧ 0 ≤ (t - (smoothStep t)^[n] c) * (t - c) := by
  refine ⟨?_, ?_, ?_⟩
  · rw [Function.iterate_succ_apply', smoothStep_err]
  · rw [smoothStep_iter_err, abs_mul, abs_pow, abs_of_nonneg (by norm_num : (0:ℝ) ≤ 0.85)]
  · rw [smoothStep_iter_err]
    have h1 : (0 : ℝ) ≤ 0.85 ^ n := by positivity
    nlinarith [sq_nonneg (t - c)]

/-! The frame loop (animate): wall-clock delta measurement, clamping to
100 ms, and advancing the elapsed-time accumulator that feeds the
breathing oscillation. -/

/-- Frame-loop timing state. -/
structure FrameClock where
  lastTime : ℝ
  elapsed : ℝ

/-- One animate tick: delta since the last tick, capped at 100 ms, is
converted to seconds and added to the elapsed accumulator. -/
def frameTick (s : FrameClock) (now : ℝ) : FrameClock :=
  let delta := now - s.lastTime
  let cappedDelta := min delta 100
  { lastTime := now, elapsed := s.elapsed + cappedDelta / 1000 }

/-- The per-frame scale pass of animate: every element's smoothed scale is
advanced with the elapsed accumulator as the oscillation time input. -/
def updateObjectScales (elems : List (Vec3 × ℝ)) (elapsedTime : ℝ) : List ℝ :=
  elems.map (fun q => updateObjectScale q.1 elapsedTime q.2)

/-- One whole animate tick: advance the clock, then run the scale pass with
the new accumulator value. -/
def animateFrame (s : FrameClock) (now : ℝ) (elems : List (Vec3 × ℝ)) :
    FrameClock × List ℝ :=
  let s2 := frameTick s now
  (s2, updateObjectScales elems s2.elapsed)

/-- Claim C9.  Each tick clamps the wall-clock delta to at most 100 ms,
advances the elapsed accumulator by exactly the clamped delta (in seconds,
hence by at most 0.1 s even after a long suspension), and feeds that
accumulator to the breathing scale update. -/
theorem frame_delta_clamped (s : FrameClock) (now : ℝ) (elems : List (Vec3 × ℝ)) :
    (frameTick s now).elapsed - s.elapsed = min (now - s.lastTime) 100 / 1000
    ∧ min (now - s.lastTime) 100 ≤ 100
    ∧ (frameTick s now).elapsed - s.elapsed ≤ 0.1
    ∧ (animateFrame s now elems).2 =
        updateObjectScales elems (s.elapsed + min (now - s.lastTime) 100 / 1000) := by
  refine ⟨by simp [frameTick], min_le_right _ _, ?_, rfl⟩
  have h : min (now - s.lastTime) 100 ≤ 100 := min_le_right _ _
  simp only [frameTick]
  nlinarith [h]

/-! Boundedness of the smoothed breathing scale. -/

/-- One scale update of an element whose stored scale may still be unset:
an unset scale is initialized to 1.0 first, as in updateObjectScales. -/
def stepScale (c : Option ℝ) (elapsedTime : ℝ) (pos : Vec3) : ℝ :=
  updateObjectScale pos elapsedTime (c.getD 1.0)

/-- The stored scale of one element after a sequence of ticks, each tick
supplying the elapsed accumulator and the element's current position;
none is the initial unset state. -/
def scaleAfter (ticks : List (ℝ × Vec3)) : Option ℝ :=
  ticks.foldl (fun c q => some (stepScale c q.1 q.2)) none

/-- A single code update keeps the scale inside [0.75, 1.25] since the
target scale 1 + sin(..) * 0.25 lies in that interval and the update is a
convex combination with weights 0.85 and 0.15. -/
lemma updateObjectScale_bounds (pos : Vec3) (e c : ℝ)
    (h0 : 0.75 ≤ c) (h1 : c ≤ 1.25) :
    0.75 ≤ updateObjectScale pos e c ∧ updateObjectScale pos e c ≤ 1.25 := by
  have hs1 := Real.neg_one_le_sin (e * 1.2 -
    Real.sqrt (pos.x * pos.x + pos.y * pos.y + pos.z * pos.z) * 0.002)
  have hs2 := Real.sin_le_one (e * 1.2 -
    Real.sqrt (pos.x * pos.x + pos.y * pos.y + pos.z * pos.z) * 0.002)
  unfold updateObjectScale
  constructor <;> nlinarith

/-- Folding scale updates from any in-bounds stored state stays in bounds. -/
lemma scaleFold_bounds (ticks : List (ℝ × Vec3)) :
    ∀ c : Option ℝ, 0.75 ≤ c.getD 1.0 → c.getD 1.0 ≤ 1.25 →
      0.75 ≤ (ticks.foldl (fun c q => some (stepScale c q.1 q.2)) c).getD 1.0
      ∧ (ticks.foldl (fun c q => some (stepScale c q.1 q.2)) c).getD 1.0 ≤ 1.25 := by
  induction ticks with
  | nil => exact fun c h0 h1 => ⟨h0, h1⟩
  | cons q qs ih =>
    intro c h0 h1
    have hb := updateObjectScale_bounds q.2 q.1 (c.getD 1.0) h0 h1
    exact ih (some (stepScale c q.1 q.2)) hb.1 hb.2

/-- Claim C10.  Starting from the unset state (initialized to 1.0 at the
first update), the stored breathing scale lies in [0.75, 1.25] after every
sequence of ticks. -/
theorem currentScale_bounded (ticks : List (ℝ × Vec3)) :
    0.75 ≤ (scaleAfter ticks).getD 1.0 ∧ (scaleAfter ticks).getD 1.0 ≤ 1.25 :=
  scaleFold_bounds ticks none (by norm_num) (by norm_num)

end

end Geusey
